import Mathlib

/-!
Verification of the online-enrichment core of HWOC (src/HWOC.py).

The Python module is shallowly embedded: HTML documents are abstracted to
the features the code inspects (anchor hrefs, dt/dd sibling pairs,
two-column table rows, the title element), the network is an oracle
mapping requests to optional responses (`none` models a raised
requests/JSON exception, i.e. a fetch or parse failure), and Python dicts
are insertion-ordered association lists.  The module-level CACHE object is
not defined anywhere in the source; its get/set/invalidate contract is
modelled from the spec (section 4.1), and a separate environment-indexed
layer models the NameError that the source as written actually produces.
-/

namespace HWOC

/-- Whether the first character list leads the second, i.e. Python's
str.startswith over code points. -/
def leadsWith : List Char → List Char → Bool
  | [], _ => true
  | _ :: _, [] => false
  | a :: as, b :: bs => a == b && leadsWith as bs

/-- Whether the second character list occurs inside the first, i.e.
Python's in operator on strings, over code points. -/
def containsSub : List Char → List Char → Bool
  | [], pat => pat.isEmpty
  | s@(_ :: t), pat => leadsWith pat s || containsSub t pat

/-- Python's pat in h substring test. -/
def strContains (h pat : String) : Bool :=
  containsSub h.data pat.data

/-- Python's h.startswith(pat). -/
def strStartsWith (h pat : String) : Bool :=
  leadsWith pat.data h.data

/-- Python's h.endswith(pat). -/
def strEndsWith (h pat : String) : Bool :=
  leadsWith pat.data.reverse h.data.reverse

/-- Python's s.lower(), per code point (the scraped vendor strings are
ASCII, where Char.toLower agrees with str.lower). -/
def pyLower (s : String) : String :=
  ⟨s.data.map Char.toLower⟩

/-- The whitespace-delimited words of a character list; cur accumulates
the current word reversed. -/
def wordsLoop : List Char → List Char → List (List Char)
  | cur, [] => if cur.isEmpty then [] else [cur.reverse]
  | cur, c :: t =>
    if c.isWhitespace then
      if cur.isEmpty then wordsLoop [] t else cur.reverse :: wordsLoop [] t
    else wordsLoop (c :: cur) t

/-- Embeds normspace (HWOC.py line 77): collapse whitespace runs to one
space and trim — equivalently, the whitespace-separated words joined by
single spaces.  Python's regex class \s is modelled by Char.isWhitespace,
which agrees on the ASCII whitespace appearing in scraped text. -/
def normspace (s : String) : String :=
  ⟨List.intercalate [' '] (wordsLoop [] s.data)⟩

/-- Python string slicing s[:k] over code points (HWOC.py line 245). -/
def pyslice (s : String) (k : Nat) : String :=
  ⟨s.data.take k⟩

/-- Insertion-ordered dictionary update, as Python dict assignment:
an existing key keeps its position and receives the new value, a new key
is appended at the end. -/
def dinsert {α : Type} (m : List (String × α)) (k : String) (v : α) :
    List (String × α) :=
  match m with
  | [] => [(k, v)]
  | p :: t => if p.1 = k then (k, v) :: t else p :: dinsert t k v

/-- Python dict lookup d.get(k): the value at the first matching key. -/
def dlookup {α : Type} (m : List (String × α)) (k : String) : Option α :=
  match m with
  | [] => none
  | p :: t => if p.1 = k then some p.2 else dlookup t k

/-- Embeds the OnlineSpec dataclass (HWOC.py lines 173-177); also stands
for the JSON dicts of shape source / official_url / fields built by the
resolvers, which carry exactly these three keys. -/
structure OnlineSpec where
  source : String
  official_url : String
  fields : List (String × String)
deriving DecidableEq

/-- A resolver-level JSON document: none models the empty Python dict
(the value returned on failure, and falsy under if cached:), some s the
three-key spec dict, which is always truthy. -/
abbrev JDoc := Option OnlineSpec

/-- Embeds OnlineSpec(**v) (HWOC.py line 467): the empty dict yields the
dataclass defaults, a spec dict fills all three fields. -/
def specOf : JDoc → OnlineSpec
  | none => ⟨"", "", []⟩
  | some s => s

/-- An HTML document abstracted to the features the scraper reads:
hrefs of anchor tags in document order (absent href attributes read as ""
by a.get), dt elements paired with their next dd sibling when present,
table rows as cell-text lists, and the optional title element text. -/
structure Doc where
  anchors : List String
  dts : List (String × Option String)
  rows : List (List String)
  title : Option String
deriving DecidableEq

/-- Embeds the dt/dd dict comprehension (HWOC.py lines 264-265): one
entry per dt that has a dd sibling, both texts whitespace-normalized. -/
def dtPairs (d : Doc) : List (String × String) :=
  d.dts.foldl
    (fun m p =>
      match p.2 with
      | some dd => dinsert m (normspace p.1) (normspace dd)
      | none => m) []

/-- Embeds the table-row loop (HWOC.py lines 267-269 and 297-299):
rows with at least two cells contribute first-cell to second-cell
entries, accumulated onto an initial dict. -/
def tablePairs (init : List (String × String)) (d : Doc) :
    List (String × String) :=
  d.rows.foldl
    (fun m r =>
      match r with
      | c0 :: c1 :: _ => dinsert m (normspace c0) (normspace c1)
      | _ => m) init

/-- Embeds the first-matching-link search (HWOC.py lines 258 and 290):
the first anchor whose href contains the pattern and ends in .html. -/
def findLink (pat : String) (d : Doc) : Option String :=
  d.anchors.find? (fun h => strContains h pat && strEndsWith h ".html")

/-- The Intel ARK allow-list (HWOC.py lines 272-274). -/
def intelWanted : List String :=
  ["Total Cores", "Total Threads", "Max Turbo Frequency",
   "Processor Base Frequency", "Cache", "Bus Speed", "TDP", "Lithography",
   "Max Memory Size", "Memory Types", "Max # of PCI Express Lanes",
   "Processor Graphics"]

/-- The TechPowerUp allow-list (HWOC.py lines 302-304). -/
def tpuWanted : List String :=
  ["GPU Name", "GPU Variant", "Architecture", "Foundry", "Process Size",
   "TDP", "Transistors", "Die Size", "Base Clock", "Boost Clock",
   "Memory Size", "Memory Type", "Memory Bus", "Bandwidth", "Release Date"]

/-- Embeds the title computation (HWOC.py lines 276 and 306): the
normalized title element text, or the queried component name when the
document has no title element. -/
def titleOf (d : Doc) (queried : String) : String :=
  match d.title with
  | some t => normspace t
  | none => queried

/-- Embeds the shared tail of both scrapers (HWOC.py lines 275-277 and
305-307): filter against the allow-list, then Python's
filtered or specs or single-title-entry chain of truthiness tests. -/
def postFields (specs : List (String × String)) (wanted : List String)
    (title : String) : List (String × String) :=
  let filtered := specs.filter (fun p => wanted.contains p.1)
  if filtered.isEmpty = false then filtered
  else if specs.isEmpty = false then specs
  else [("title", title)]

/-- Field extraction of the Intel ARK detail page (HWOC.py lines
264-277): dt/dd sibling pairs first, two-column table rows only when
that yields none, then the shared filter/fallback tail. -/
def intelFieldsOf (pdoc : Doc) (cpu_name : String) : List (String × String) :=
  let specs0 := dtPairs pdoc
  let specs := if specs0.isEmpty then tablePairs [] pdoc else specs0
  postFields specs intelWanted (titleOf pdoc cpu_name)

/-- Field extraction of the TechPowerUp detail page (HWOC.py lines
296-307): two-column table rows only, then the shared tail. -/
def tpuFieldsOf (pdoc : Doc) (gpu_name : String) : List (String × String) :=
  postFields (tablePairs [] pdoc) tpuWanted (titleOf pdoc gpu_name)

/-- Modelled from the spec: the Cache Store of section 4.1, whose code
(the CACHE object) is not in src/.  A persistent key-to-document mapping
with get(key) returning the stored document or nothing, set(key, doc)
replacing atomically, and invalidate() clearing every entry. -/
structure CacheStore where
  entries : List (String × JDoc)
deriving DecidableEq

def CacheStore.get (c : CacheStore) (k : String) : Option JDoc :=
  dlookup c.entries k

def CacheStore.set (c : CacheStore) (k : String) (v : JDoc) : CacheStore :=
  ⟨dinsert c.entries k v⟩

def CacheStore.invalidate (_ : CacheStore) : CacheStore :=
  ⟨[]⟩

/-- The network as a deterministic oracle.  Each field answers one kind
of outbound request the module makes; none models a raised exception
(network error, timeout, non-2xx status, or JSON/index error while
reading the response), which the enclosing try blocks catch.
URL-encoding of the query is injective, so search responses are keyed by
the raw name; detail responses are keyed by the resolved href. -/
structure World where
  wikiSearch : String → Option (Option Nat)
  wikiExtract : Nat → Option String
  intelSearch : String → Option Doc
  intelDetail : String → Option Doc
  tpuSearch : String → Option Doc
  tpuDetail : String → Option Doc

/-- Embeds HardwareReporter._cache_or_fetch_json (HWOC.py lines 217-226)
under the spec-modelled CACHE.  A cached truthy (nonempty) document is
returned with no fetch; a cached empty document is falsy, so the fetch
function runs exactly as on a missing key.  Every fetch function of the
module returns a dict, so the isinstance guard always holds and the
result — empty or not — is stored.  The third component counts HTTP GET
requests performed. -/
def cache_or_fetch_json (c : CacheStore) (key : String)
    (fetch : CacheStore → JDoc × CacheStore × Nat) : JDoc × CacheStore × Nat :=
  match c.get key with
  | some (some v) => (some v, c, 0)
  | _ =>
    let r := fetch c
    (r.1, r.2.1.set key r.1, r.2.2)

/-- Embeds the inner fetch closure of _wikipedia_summary (HWOC.py lines
230-247): search for the title, read the first hit's pageid (a missing,
falsy, or error-producing pageid yields the empty dict), then fetch the
plain-text extract and wrap it as a one-field spec dict, truncating the
extract to 1200 code points. -/
def wikiFetch (w : World) (title : String) : JDoc × Nat :=
  match w.wikiSearch title with
  | none => (none, 1)
  | some none => (none, 1)
  | some (some pageid) =>
    if pageid = 0 then (none, 1)
    else
      match w.wikiExtract pageid with
      | none => (none, 2)
      | some extract =>
        (some ⟨"wikipedia", "https://en.wikipedia.org/?curid=" ++ toString pageid,
               [("summary", pyslice extract 1200)]⟩, 2)

/-- The cache key used by _wikipedia_summary (HWOC.py line 248). -/
def wikiKey (title : String) : String := "wikipedia:" ++ title

/-- Embeds HardwareReporter._wikipedia_summary (HWOC.py lines 228-248):
the wikipedia fetch behind the cache layer. -/
def wikipedia_summary (w : World) (c : CacheStore) (title : String) :
    JDoc × CacheStore × Nat :=
  cache_or_fetch_json c (wikiKey title)
    (fun c0 => let r := wikiFetch w title; (r.1, c0, r.2))

/-- The data distinguishing the two vendor scrapers, which are otherwise
line-for-line identical: the search request, the link pattern, the base
URL for relative hrefs, the detail request, the extraction, the source
tag, and the cache key namespace. -/
structure Vendor where
  search : World → String → Option Doc
  pat : String
  base : String
  detail : World → String → Option Doc
  extractFields : Doc → String → List (String × String)
  tag : String
  keyPfx : String

/-- Embeds the inner fetch closures of _intel_ark_specs and
_techpowerup_gpu_specs (HWOC.py lines 252-279 and 284-309): fetch the
search page, find the first matching link, absolutize it, fetch the
detail page and extract; a missing link or any exception delegates to
_wikipedia_summary. -/
def vendorFetch (v : Vendor) (w : World) (c : CacheStore) (n : String) :
    JDoc × CacheStore × Nat :=
  match v.search w n with
  | none =>
    let r := wikipedia_summary w c n
    (r.1, r.2.1, r.2.2 + 1)
  | some soup =>
    match findLink v.pat soup with
    | none =>
      let r := wikipedia_summary w c n
      (r.1, r.2.1, r.2.2 + 1)
    | some h0 =>
      let href := if strStartsWith h0 "http" then h0 else v.base ++ h0
      match v.detail w href with
      | none =>
        let r := wikipedia_summary w c n
        (r.1, r.2.1, r.2.2 + 2)
      | some psoup =>
        (some ⟨v.tag, href, v.extractFields psoup n⟩, c, 2)

/-- A vendor scraper behind the cache layer (the bodies of
_intel_ark_specs and _techpowerup_gpu_specs, lines 280 and 310). -/
def vendorSpecs (v : Vendor) (w : World) (c : CacheStore) (n : String) :
    JDoc × CacheStore × Nat :=
  cache_or_fetch_json c (v.keyPfx ++ n) (fun c0 => vendorFetch v w c0 n)

/-- The cache-independent spine of a vendor scraper, derived from
vendorFetch for proof purposes: which detail page, if any, the
search/link/detail steps reach.  It depends only on the network oracle,
never on the cache. -/
def vendorHit (v : Vendor) (w : World) (n : String) : Option (Doc × String) :=
  match v.search w n with
  | none => none
  | some soup =>
    match findLink v.pat soup with
    | none => none
    | some h0 =>
      let href := if strStartsWith h0 "http" then h0 else v.base ++ h0
      match v.detail w href with
      | none => none
      | some psoup => some (psoup, href)

/-- The Intel ARK configuration (HWOC.py lines 250-280). -/
def intelVendor : Vendor :=
  ⟨fun w => w.intelSearch, "/products/", "https://ark.intel.com",
   fun w => w.intelDetail, intelFieldsOf, "intel_ark", "intel:"⟩

/-- The TechPowerUp configuration (HWOC.py lines 282-310). -/
def tpuVendor : Vendor :=
  ⟨fun w => w.tpuSearch, "/gpu-specs/", "https://www.techpowerup.com",
   fun w => w.tpuDetail, tpuFieldsOf, "techpowerup", "tpu:"⟩

/-- Embeds HardwareReporter._intel_ark_specs (HWOC.py lines 250-280). -/
def intel_ark_specs (w : World) (c : CacheStore) (n : String) :
    JDoc × CacheStore × Nat :=
  vendorSpecs intelVendor w c n

/-- Embeds HardwareReporter._techpowerup_gpu_specs (HWOC.py lines
282-310). -/
def techpowerup_gpu_specs (w : World) (c : CacheStore) (n : String) :
    JDoc × CacheStore × Nat :=
  vendorSpecs tpuVendor w c n

/-- The three resolvers a component can be dispatched to. -/
inductive Route where
  | intel
  | tpu
  | wiki
deriving DecidableEq

/-- Runs the resolver selected by the fallback chain. -/
def runResolver : Route → World → CacheStore → String → JDoc × CacheStore × Nat
  | Route.intel, w, c, n => intel_ark_specs w c n
  | Route.tpu, w, c, n => techpowerup_gpu_specs w c n
  | Route.wiki, w, c, n => wikipedia_summary w c n

/-- The CPU fields the routing decision reads (CPUInfo, HWOC.py lines
106-115; only name and manufacturer are consulted by enrich_online). -/
structure CPUInfo where
  name : String
  manufacturer : String
deriving DecidableEq

/-- Embeds the CPU routing condition of enrich_online (HWOC.py line
453): case-insensitive substring match of intel against the
manufacturer, or the lowercased name starting with the six characters
intel-space. -/
def routeForCPU (manufacturer name : String) : Route :=
  if strContains (pyLower manufacturer) "intel" ||
      strStartsWith (pyLower name) "intel " then Route.intel
  else Route.wiki

/-- Embeds the task-submission loop of enrich_online (HWOC.py lines
450-461): one (report key, resolver, query name) triple per dispatched
component — the CPU when present with a nonempty name, and every GPU
with a nonempty name, keyed gpu followed by its index. -/
def submittedTasks (cpu : Option CPUInfo) (gpus : List String) :
    List (String × Route × String) :=
  (match cpu with
   | some cq =>
     if cq.name ≠ "" then [("cpu", routeForCPU cq.manufacturer cq.name, cq.name)]
     else []
   | none => []) ++
  (gpus.enum.filterMap
    (fun p => if p.2 ≠ "" then some ("gpu" ++ toString p.1, Route.tpu, p.2)
              else none))

/-- The identifiers of the input components: cpu for the CPU entry and
gpu-index for each GPU of the inventory. -/
def inputIdentifiers (cpu : Option CPUInfo) (gpus : List String) : List String :=
  (match cpu with
   | some _ => ["cpu"]
   | none => []) ++
  (List.range gpus.length).map (fun i => "gpu" ++ toString i)

/-- Embeds the fan-in loop of enrich_online (HWOC.py lines 464-469) over
the completed task outcomes in completion order: none models a task
whose result call re-raised an exception, which the orchestrator catches
and skips; a some outcome carries the key the task lambda fixed at
submission and the resolver's dict, stored as OnlineSpec(**v).  One loop
iteration is collectStep. -/
def collectStep (online : List (String × OnlineSpec))
    (o : Option (String × JDoc)) : List (String × OnlineSpec) :=
  match o with
  | none => online
  | some (k, v) => dinsert online k (specOf v)

/-- The whole fan-in loop of enrich_online over the completed outcomes. -/
def collectOnline (outcomes : List (Option (String × JDoc))) :
    List (String × OnlineSpec) :=
  outcomes.foldl collectStep []

/-- Embeds enrich_online (HWOC.py lines 443-471) with the thread pool
sequentialized: tasks run in submission order, threading the shared
cache, and their results are collected into the online mapping. -/
def enrich_online (w : World) (c : CacheStore) (cpu : Option CPUInfo)
    (gpus : List String) : List (String × OnlineSpec) × CacheStore :=
  (submittedTasks cpu gpus).foldl
    (fun acc t =>
      let r := runResolver t.2.1 w acc.2 t.2.2
      (dinsert acc.1 t.1 (specOf r.1), r.2.1))
    ([], c)

/-- The one kind of exception relevant to name resolution: Python's
NameError for a free global variable that is not bound. -/
inductive PyErr where
  | nameError
deriving DecidableEq

/-- The names bound at the top level of HWOC.py: the imported modules
and objects (lines 8-53) and the module's own globals, functions and
classes (lines 57-662).  CACHE is absent — only CACHE_DIR is ever
defined (line 59). -/
def moduleGlobalNames : List String :=
  ["argparse", "concurrent", "contextlib", "dt", "hashlib", "json", "os",
   "platform", "random", "re", "sys", "time", "up", "dataclass", "asdict",
   "field", "Any", "Dict", "List", "Optional", "psutil", "wmi", "requests",
   "BeautifulSoup", "Console", "Table", "Panel", "box", "Text", "Theme",
   "APP_NAME", "CACHE_DIR", "UA_LIST", "now_utc_iso", "normspace",
   "safe_int", "sha1", "bytes_to_human", "CPUInfo", "GPUInfo",
   "MemoryModule", "DiskInfo", "MotherboardInfo", "BIOSInfo", "NICInfo",
   "OSInfo", "OnlineSpec", "Report", "HardwareReporter", "render_compact",
   "render_tables", "main"]

/-- _cache_or_fetch_json as the source actually executes it, indexed by
the global namespace g: its first statement evaluates the free name
CACHE, so when CACHE is unbound a NameError is raised before the fetch
function can run; when CACHE is bound the pure semantics applies.  The
inner fetch closures cannot intercept this: the error arises outside
their try blocks. -/
def cache_or_fetch_jsonE (g : List String) (c : CacheStore) (key : String)
    (fetch : CacheStore → JDoc × CacheStore × Nat) :
    Except PyErr (JDoc × CacheStore × Nat) :=
  if g.contains "CACHE" then Except.ok (cache_or_fetch_json c key fetch)
  else Except.error PyErr.nameError

/-- A resolver run under the global namespace g.  Every resolver's body
is exactly one _cache_or_fetch_json call, so the NameError from an
unbound CACHE propagates out of the resolver uncaught. -/
def runResolverE (g : List String) (r : Route) (w : World) (c : CacheStore)
    (n : String) : Except PyErr (JDoc × CacheStore × Nat) :=
  match r with
  | Route.intel =>
    cache_or_fetch_jsonE g c ("intel:" ++ n) (fun c0 => vendorFetch intelVendor w c0 n)
  | Route.tpu =>
    cache_or_fetch_jsonE g c ("tpu:" ++ n) (fun c0 => vendorFetch tpuVendor w c0 n)
  | Route.wiki =>
    cache_or_fetch_jsonE g c (wikiKey n)
      (fun c0 => let r := wikiFetch w n; (r.1, c0, r.2))

/-- enrich_online under the global namespace g (HWOC.py lines 443-471,
sequentialized): each task's exception is caught by the per-future
except clause and the task's entry is simply skipped. -/
def enrich_onlineE (g : List String) (w : World) (c : CacheStore)
    (cpu : Option CPUInfo) (gpus : List String) :
    List (String × OnlineSpec) × CacheStore :=
  (submittedTasks cpu gpus).foldl
    (fun acc t =>
      match runResolverE g t.2.1 w acc.2 t.2.2 with
      | Except.error _ => acc
      | Except.ok r => (dinsert acc.1 t.1 (specOf r.1), r.2.1))
    ([], c)

/-- The --refresh-cache branch of main (HWOC.py lines 683-684):
CACHE.invalidate() evaluates the free name CACHE.  Nothing in main
catches a NameError — its try block (lines 688-695) only guards the
collect/enrich calls and only catches wmi.x_wmi, and the __main__ guard
(lines 708-712) only catches KeyboardInterrupt. -/
def refreshCacheE (g : List String) (c : CacheStore) : Except PyErr CacheStore :=
  if g.contains "CACHE" then Except.ok c.invalidate
  else Except.error PyErr.nameError

/-- main's interaction with the cache and the enrichment phase under the
global namespace g: invalidate first when the refresh flag is set (an
exception there aborts main), then produce the online mapping. -/
def mainOnlineE (g : List String) (refresh : Bool) (w : World) (c : CacheStore)
    (cpu : Option CPUInfo) (gpus : List String) :
    Except PyErr (List (String × OnlineSpec)) :=
  match (if refresh then refreshCacheE g c else Except.ok c) with
  | Except.error e => Except.error e
  | Except.ok c1 => Except.ok (enrich_onlineE g w c1 cpu gpus).1

/-- The ways a wikipedia lookup's own fetch can fail: the search request
or JSON/index handling raises, no pageid is present, the pageid is falsy,
or the extract request raises. -/
def wikiFails (w : World) (t : String) : Prop :=
  w.wikiSearch t = none ∨ w.wikiSearch t = some none ∨
  w.wikiSearch t = some (some 0) ∨
  ∃ pid, w.wikiSearch t = some (some pid) ∧ w.wikiExtract pid = none

/-! ### Concrete fixtures used to evaluate the model -/

def cEmpty : CacheStore := ⟨[]⟩

def emptyDoc : Doc := ⟨[], [], [], none⟩

def wAllFail : World :=
  ⟨fun _ => none, fun _ => none, fun _ => none, fun _ => none,
   fun _ => none, fun _ => none⟩

def wWikiOK : World :=
  ⟨fun _ => some (some 5), fun _ => some "An x86 microprocessor.",
   fun _ => none, fun _ => none, fun _ => none, fun _ => none⟩

def wNoLinkEmpty : World :=
  ⟨fun _ => none, fun _ => none, fun _ => some emptyDoc, fun _ => none,
   fun _ => some emptyDoc, fun _ => none⟩

def tpuDetailDoc : Doc := ⟨[], [("Cores", some "8")], [], none⟩

def wDetailTPU : World :=
  ⟨fun _ => none, fun _ => none, fun _ => none, fun _ => none,
   fun _ => some ⟨["https://www.techpowerup.com/gpu-specs/g.html"], [], [], none⟩,
   fun _ => some tpuDetailDoc⟩

def intelDetailDoc : Doc := ⟨[], [("TDP", some "65 W")], [], some "Intel Core X"⟩

def wDetailIntel : World :=
  ⟨fun _ => none, fun _ => none,
   fun _ => some ⟨["https://ark.intel.com/products/x.html"], [], [], none⟩,
   fun _ => some intelDetailDoc, fun _ => none, fun _ => none⟩

def dtsOnlyDoc : Doc := ⟨[], [("A", some "B")], [], none⟩

def intelSearchDoc : Doc :=
  ⟨["https://ark.intel.com/products/x.html"], [], [], none⟩

def tpuSearchDoc : Doc :=
  ⟨["https://www.techpowerup.com/gpu-specs/g.html"], [], [], none⟩

def sampleSpec : OnlineSpec :=
  ⟨"wikipedia", "https://en.wikipedia.org/?curid=7", [("summary", "s")]⟩

def cOne : CacheStore := ⟨[("k", some sampleSpec)]⟩

/-! ### Dictionary lemmas -/

theorem dlookup_dinsert_self {α : Type} (m : List (String × α)) (k : String)
    (v : α) : dlookup (dinsert m k v) k = some v := by
  induction m with
  | nil => simp [dinsert, dlookup]
  | cons p t ih =>
    by_cases h : p.1 = k
    · simp [dinsert, dlookup, h]
    · simp [dinsert, dlookup, h, ih]

theorem dlookup_dinsert_ne {α : Type} (m : List (String × α)) (k k' : String)
    (v : α) (hne : k' ≠ k) : dlookup (dinsert m k v) k' = dlookup m k' := by
  have hk : ¬ k = k' := fun h => hne h.symm
  induction m with
  | nil => simp [dinsert, dlookup, hk]
  | cons p t ih =>
    by_cases h : p.1 = k
    · subst h
      simp [dinsert, dlookup, hk]
    · by_cases h2 : p.1 = k'
      · rw [dinsert, if_neg h]
        simp [dlookup, h2]
      · simp [dinsert, dlookup, h, h2, ih]

theorem mem_keys_dinsert {α : Type} (m : List (String × α)) (k x : String)
    (v : α) : x ∈ (dinsert m k v).map Prod.fst → x ∈ m.map Prod.fst ∨ x = k := by
  induction m with
  | nil =>
    intro hx
    simpa [dinsert] using hx
  | cons p t ih =>
    intro hx
    by_cases h : p.1 = k
    · rw [dinsert, if_pos h] at hx
      simp only [List.map_cons, List.mem_cons] at hx ⊢
      rcases hx with hx | hx
      · exact Or.inr hx
      · exact Or.inl (Or.inr hx)
    · rw [dinsert, if_neg h] at hx
      simp only [List.map_cons, List.mem_cons] at hx ⊢
      rcases hx with hx | hx
      · exact Or.inl (Or.inl hx)
      · rcases ih hx with h2 | h2
        · exact Or.inl (Or.inr h2)
        · exact Or.inr h2

theorem nodup_keys_dinsert {α : Type} (m : List (String × α)) (k : String)
    (v : α) : (m.map Prod.fst).Nodup → ((dinsert m k v).map Prod.fst).Nodup := by
  induction m with
  | nil =>
    intro _
    simp [dinsert]
  | cons p t ih =>
    intro hm
    rw [List.map_cons, List.nodup_cons] at hm
    by_cases h : p.1 = k
    · rw [dinsert, if_pos h]
      rw [List.map_cons, List.nodup_cons]
      exact ⟨h ▸ hm.1, hm.2⟩
    · rw [dinsert, if_neg h]
      rw [List.map_cons, List.nodup_cons]
      refine ⟨fun hmem => ?_, ih hm.2⟩
      rcases mem_keys_dinsert t k p.1 v hmem with h2 | h2
      · exact hm.1 h2
      · exact h h2

/-! ### Cache-store lemmas -/

theorem CacheStore.get_set_self (c : CacheStore) (k : String) (v : JDoc) :
    (c.set k v).get k = some v :=
  dlookup_dinsert_self c.entries k v

theorem CacheStore.get_set_ne (c : CacheStore) (k k' : String) (v : JDoc)
    (hne : k' ≠ k) : (c.set k v).get k' = c.get k' :=
  dlookup_dinsert_ne c.entries k k' v hne

theorem cof_hit (c : CacheStore) (key : String)
    (f : CacheStore → JDoc × CacheStore × Nat) (v : OnlineSpec)
    (h : c.get key = some (some v)) :
    cache_or_fetch_json c key f = (some v, c, 0) := by
  simp [cache_or_fetch_json, h]

theorem cof_miss (c : CacheStore) (key : String)
    (f : CacheStore → JDoc × CacheStore × Nat)
    (h : c.get key = none ∨ c.get key = some none) :
    cache_or_fetch_json c key f
      = ((f c).1, ((f c).2.1).set key (f c).1, (f c).2.2) := by
  rcases h with h | h <;> simp [cache_or_fetch_json, h]

/-! ### Resolver lemmas -/

theorem intelKey_ne_wikiKey (n : String) : "intel:" ++ n ≠ wikiKey n := by
  intro h
  rw [wikiKey] at h
  have h2 := congrArg String.length h
  rw [String.length_append, String.length_append] at h2
  have h3 : ("intel:".length : Nat) = "wikipedia:".length := by omega
  exact absurd h3 (by decide)

theorem tpuKey_ne_wikiKey (n : String) : "tpu:" ++ n ≠ wikiKey n := by
  intro h
  rw [wikiKey] at h
  have h2 := congrArg String.length h
  rw [String.length_append, String.length_append] at h2
  have h3 : ("tpu:".length : Nat) = "wikipedia:".length := by omega
  exact absurd h3 (by decide)

/-- Every run of the wikipedia fetch either yields the empty dict or a
success built from a nonzero pageid and a fetched extract. -/
theorem wikiFetch_fst_cases (w : World) (t : String) :
    (wikiFetch w t).1 = none ∨
    ∃ pid ex, w.wikiSearch t = some (some pid) ∧ pid ≠ 0 ∧
      w.wikiExtract pid = some ex ∧
      (wikiFetch w t).1 = some ⟨"wikipedia",
        "https://en.wikipedia.org/?curid=" ++ toString pid,
        [("summary", pyslice ex 1200)]⟩ := by
  cases hs : w.wikiSearch t with
  | none => left; simp [wikiFetch, hs]
  | some o =>
    cases o with
    | none => left; simp [wikiFetch, hs]
    | some pid =>
      by_cases hp : pid = 0
      · left; simp [wikiFetch, hs, hp]
      · cases he : w.wikiExtract pid with
        | none => left; simp [wikiFetch, hs, hp, he]
        | some ex =>
          right
          exact ⟨pid, ex, rfl, hp, he, by simp [wikiFetch, hs, hp, he]⟩

theorem wiki_summary_hit (w : World) (c : CacheStore) (t : String)
    (v : OnlineSpec) (h : c.get (wikiKey t) = some (some v)) :
    wikipedia_summary w c t = (some v, c, 0) :=
  cof_hit c (wikiKey t) _ v h

theorem wiki_summary_miss (w : World) (c : CacheStore) (t : String)
    (h : c.get (wikiKey t) = none ∨ c.get (wikiKey t) = some none) :
    wikipedia_summary w c t
      = ((wikiFetch w t).1, c.set (wikiKey t) (wikiFetch w t).1,
         (wikiFetch w t).2) :=
  cof_miss c (wikiKey t) _ h

/-- When the wikipedia resolver hands back the empty dict, the cache key
was empty or absent, the fetch itself failed, and the empty result has
been written to the store. -/
theorem wiki_summary_fst_none (w : World) (c : CacheStore) (t : String)
    (h : (wikipedia_summary w c t).1 = none) :
    (c.get (wikiKey t) = none ∨ c.get (wikiKey t) = some none) ∧
    (wikiFetch w t).1 = none ∧
    (wikipedia_summary w c t).2.1 = c.set (wikiKey t) none := by
  cases hget : c.get (wikiKey t) with
  | none =>
    have hm := wiki_summary_miss w c t (Or.inl hget)
    rw [hm] at h
    simp only at h
    refine ⟨Or.inl rfl, h, ?_⟩
    rw [hm]
    simp [h]
  | some o =>
    cases o with
    | none =>
      have hm := wiki_summary_miss w c t (Or.inr hget)
      rw [hm] at h
      simp only at h
      refine ⟨Or.inr rfl, h, ?_⟩
      rw [hm]
      simp [h]
    | some v =>
      rw [wiki_summary_hit w c t v hget] at h
      simp at h

/-- A wikipedia lookup that failed once fails again on the cache state
it produced, even after an unrelated key was written: the stored empty
document is falsy, so the fetch re-runs and fails the same way. -/
theorem wiki_after_poison (w : World) (c : CacheStore) (n key : String)
    (hki : key ≠ wikiKey n)
    (hnone : (wikipedia_summary w c n).1 = none) :
    (wikipedia_summary w (((wikipedia_summary w c n).2.1).set key none) n).1
      = none := by
  obtain ⟨_, hwf, hc⟩ := wiki_summary_fst_none w c n hnone
  rw [hc]
  have hget : ((c.set (wikiKey n) none).set key none).get (wikiKey n)
      = some none := by
    rw [CacheStore.get_set_ne _ _ _ _ (fun h2 => hki h2.symm)]
    exact CacheStore.get_set_self c (wikiKey n) none
  rw [wiki_summary_miss w _ n (Or.inr hget)]
  exact hwf

/-- When no detail page is reached, the vendor fetch is exactly the
wikipedia fallback: same document, same cache state afterwards. -/
theorem vendorFetch_fallback (v : Vendor) (w : World) (c : CacheStore)
    (n : String) (h : vendorHit v w n = none) :
    (vendorFetch v w c n).1 = (wikipedia_summary w c n).1 ∧
    (vendorFetch v w c n).2.1 = (wikipedia_summary w c n).2.1 := by
  unfold vendorHit at h
  unfold vendorFetch
  cases hs : v.search w n with
  | none => simp
  | some soup =>
    rw [hs] at h
    simp only at h
    cases hl : findLink v.pat soup with
    | none => simp [hl]
    | some h0 =>
      rw [hl] at h
      simp only at h
      cases hd : v.detail w (if strStartsWith h0 "http" then h0
          else v.base ++ h0) with
      | none => simp [hl, hd]
      | some psoup =>
        rw [hd] at h
        simp at h

/-- When a detail page is reached, the vendor fetch succeeds with the
extracted fields and leaves the cache it was given untouched. -/
theorem vendorFetch_hit (v : Vendor) (w : World) (c : CacheStore)
    (n : String) (psoup : Doc) (href : String)
    (h : vendorHit v w n = some (psoup, href)) :
    vendorFetch v w c n = (some ⟨v.tag, href, v.extractFields psoup n⟩, c, 2) := by
  unfold vendorHit at h
  unfold vendorFetch
  cases hs : v.search w n with
  | none =>
    rw [hs] at h
    simp at h
  | some soup =>
    rw [hs] at h
    simp only at h
    cases hl : findLink v.pat soup with
    | none =>
      rw [hl] at h
      simp at h
    | some h0 =>
      rw [hl] at h
      simp only at h
      cases hd : v.detail w (if strStartsWith h0 "http" then h0
          else v.base ++ h0) with
      | none =>
        rw [hd] at h
        simp at h
      | some psoup2 =>
        rw [hd] at h
        simp only [Option.some.injEq, Prod.mk.injEq] at h
        simp only [hl, hd]
        rw [h.1, h.2]

/-- Repeating a wikipedia lookup on the cache state the first call left
behind returns the same document, and performs no request when the first
result was nonempty. -/
theorem wiki_second_call (w : World) (c : CacheStore) (t : String) :
    (wikipedia_summary w ((wikipedia_summary w c t).2.1) t).1
      = (wikipedia_summary w c t).1 ∧
    ((wikipedia_summary w c t).1 ≠ none →
      (wikipedia_summary w ((wikipedia_summary w c t).2.1) t).2.2 = 0) := by
  by_cases hx : ∃ x, c.get (wikiKey t) = some (some x)
  · obtain ⟨x, hget⟩ := hx
    have h1 := wiki_summary_hit w c t x hget
    rw [h1]
    simp [h1]
  · have hmiss : c.get (wikiKey t) = none ∨ c.get (wikiKey t) = some none := by
      cases hget : c.get (wikiKey t) with
      | none => exact Or.inl rfl
      | some o =>
        cases o with
        | none => exact Or.inr rfl
        | some x => exact absurd ⟨x, hget⟩ hx
    have h1 := wiki_summary_miss w c t hmiss
    rw [h1]
    cases hF : (wikiFetch w t).1 with
    | some s =>
      have hget2 : (c.set (wikiKey t) (wikiFetch w t).1).get (wikiKey t)
          = some (some s) := by
        rw [CacheStore.get_set_self, hF]
      have h2 := wiki_summary_hit w _ t s hget2
      rw [hF] at h2
      simp only
      rw [h2]
      simp
    | none =>
      have hget2 : (c.set (wikiKey t) (wikiFetch w t).1).get (wikiKey t)
          = some none := by
        rw [CacheStore.get_set_self, hF]
      have h2 := wiki_summary_miss w _ t (Or.inr hget2)
      rw [hF] at h2
      simp only
      rw [h2]
      simp [hF]

/-- Repeating a vendor lookup on the cache state the first call left
behind returns the same document, and performs no request when the first
result was nonempty. -/
theorem vendor_second_call (v : Vendor) (w : World) (c : CacheStore)
    (n : String) (hk : v.keyPfx ++ n ≠ wikiKey n) :
    (vendorSpecs v w ((vendorSpecs v w c n).2.1) n).1 = (vendorSpecs v w c n).1 ∧
    ((vendorSpecs v w c n).1 ≠ none →
      (vendorSpecs v w ((vendorSpecs v w c n).2.1) n).2.2 = 0) := by
  by_cases hx : ∃ x, c.get (v.keyPfx ++ n) = some (some x)
  · obtain ⟨x, hget⟩ := hx
    have h1 : vendorSpecs v w c n = (some x, c, 0) :=
      cof_hit c (v.keyPfx ++ n) _ x hget
    rw [h1]
    simp [h1]
  · have hmiss : c.get (v.keyPfx ++ n) = none ∨
        c.get (v.keyPfx ++ n) = some none := by
      cases hget : c.get (v.keyPfx ++ n) with
      | none => exact Or.inl rfl
      | some o =>
        cases o with
        | none => exact Or.inr rfl
        | some x => exact absurd ⟨x, hget⟩ hx
    have h1 : vendorSpecs v w c n
        = ((vendorFetch v w c n).1,
           ((vendorFetch v w c n).2.1).set (v.keyPfx ++ n) (vendorFetch v w c n).1,
           (vendorFetch v w c n).2.2) :=
      cof_miss c (v.keyPfx ++ n) _ hmiss
    rw [h1]
    cases hF : (vendorFetch v w c n).1 with
    | some s =>
      have hget2 : (((vendorFetch v w c n).2.1).set (v.keyPfx ++ n)
          (vendorFetch v w c n).1).get (v.keyPfx ++ n) = some (some s) := by
        rw [CacheStore.get_set_self, hF]
      have h2 : vendorSpecs v w (((vendorFetch v w c n).2.1).set (v.keyPfx ++ n)
          (vendorFetch v w c n).1) n
          = (some s, ((vendorFetch v w c n).2.1).set (v.keyPfx ++ n)
             (vendorFetch v w c n).1, 0) :=
        cof_hit _ (v.keyPfx ++ n) _ s hget2
      rw [hF] at h2
      simp only
      rw [h2]
      simp
    | none =>
      have hget2 : (((vendorFetch v w c n).2.1).set (v.keyPfx ++ n)
          (vendorFetch v w c n).1).get (v.keyPfx ++ n) = some none := by
        rw [CacheStore.get_set_self, hF]
      have h2 := cof_miss (((vendorFetch v w c n).2.1).set (v.keyPfx ++ n)
          (vendorFetch v w c n).1) (v.keyPfx ++ n)
          (fun c0 => vendorFetch v w c0 n) (Or.inr hget2)
      rw [hF] at h2
      simp only
      unfold vendorSpecs
      rw [h2]
      simp only [ne_eq, not_true_eq_false, false_implies, and_true]
      cases hhit : vendorHit v w n with
      | some pr =>
        have heq := vendorFetch_hit v w c n pr.1 pr.2 (by rw [hhit])
        rw [heq] at hF
        simp at hF
      | none =>
        have hfb1 := vendorFetch_fallback v w c n hhit
        have hws1 : (wikipedia_summary w c n).1 = none := by
          rw [← hfb1.1]
          exact hF
        have hfb2 := vendorFetch_fallback v w
          (((vendorFetch v w c n).2.1).set (v.keyPfx ++ n) none) n hhit
        rw [hfb2.1]
        have hcf : (vendorFetch v w c n).2.1 = (wikipedia_summary w c n).2.1 :=
          hfb1.2
        rw [hcf]
        exact wiki_after_poison w c n (v.keyPfx ++ n) hk hws1

/-- The no-matching-link path of a vendor scraper delegates: it returns
exactly the document the wikipedia fallback returns. -/
theorem vendor_no_link_delegates (v : Vendor) (w : World) (c : CacheStore)
    (n : String) (soup : Doc)
    (hmiss : c.get (v.keyPfx ++ n) = none ∨ c.get (v.keyPfx ++ n) = some none)
    (hs : v.search w n = some soup)
    (hl : findLink v.pat soup = none) :
    (vendorSpecs v w c n).1 = (wikipedia_summary w c n).1 := by
  unfold vendorSpecs
  rw [cof_miss _ _ _ hmiss]
  simp [vendorFetch, hs, hl]

/-- Whatever the cache holds, a wikipedia lookup hands back either the
empty dict or a document whose source tag is wikipedia — provided every
document cached under the wikipedia key was produced by the wikipedia
resolver itself. -/
theorem wiki_summary_source (w : World) (c : CacheStore) (t : String)
    (hwf : ∀ x, c.get (wikiKey t) = some (some x) → x.source = "wikipedia") :
    (wikipedia_summary w c t).1 = none ∨
    ∃ s, (wikipedia_summary w c t).1 = some s ∧ s.source = "wikipedia" := by
  by_cases hx : ∃ x, c.get (wikiKey t) = some (some x)
  · obtain ⟨x, hget⟩ := hx
    right
    refine ⟨x, ?_, hwf x hget⟩
    rw [wiki_summary_hit w c t x hget]
  · have hmiss : c.get (wikiKey t) = none ∨ c.get (wikiKey t) = some none := by
      cases hget : c.get (wikiKey t) with
      | none => exact Or.inl rfl
      | some o =>
        cases o with
        | none => exact Or.inr rfl
        | some x => exact absurd ⟨x, hget⟩ hx
    rw [wiki_summary_miss w c t hmiss]
    rcases wikiFetch_fst_cases w t with h | ⟨pid, ex, _, _, _, h⟩
    · left
      exact h
    · right
      exact ⟨_, h, rfl⟩

/-! ### Orchestrator lemmas -/

theorem collect_skip_none (xs ys : List (Option (String × JDoc))) :
    collectOnline (xs ++ none :: ys) = collectOnline (xs ++ ys) := by
  unfold collectOnline
  rw [List.foldl_append, List.foldl_append, List.foldl_cons]
  rfl

theorem collect_lookup (outs : List (Option (String × JDoc))) (k : String)
    (v : JDoc) (h : some (k, v) ∈ outs) :
    ∃ v2, some (k, v2) ∈ outs ∧
      dlookup (collectOnline outs) k = some (specOf v2) := by
  induction outs using List.reverseRecOn with
  | nil => simp at h
  | append_singleton l a ih =>
    have hstep : collectOnline (l ++ [a]) = collectStep (collectOnline l) a := by
      unfold collectOnline
      rw [List.foldl_append, List.foldl_cons, List.foldl_nil]
    cases a with
    | none =>
      rw [List.mem_append] at h
      rcases h with h | h
      · obtain ⟨v2, hm, hl⟩ := ih h
        exact ⟨v2, List.mem_append.mpr (Or.inl hm), by rw [hstep]; exact hl⟩
      · simp at h
    | some p =>
      obtain ⟨k2, v2⟩ := p
      by_cases hk : k2 = k
      · subst hk
        refine ⟨v2, List.mem_append.mpr (Or.inr (by simp)), ?_⟩
        rw [hstep]
        exact dlookup_dinsert_self _ _ _
      · rw [List.mem_append] at h
        rcases h with h | h
        · obtain ⟨v3, hm, hl⟩ := ih h
          refine ⟨v3, List.mem_append.mpr (Or.inl hm), ?_⟩
          rw [hstep]
          show dlookup (dinsert (collectOnline l) k2 (specOf v2)) k = _
          rw [dlookup_dinsert_ne _ _ _ _ (fun h2 => hk h2.symm)]
          exact hl
        · simp only [List.mem_singleton, Option.some.injEq, Prod.mk.injEq] at h
          exact absurd h.1.symm hk

theorem collect_keys (outs : List (Option (String × JDoc)))
    (allowed : List String)
    (hall : ∀ k v, some (k, v) ∈ outs → k ∈ allowed) :
    ((collectOnline outs).map Prod.fst).Nodup ∧
    ∀ x ∈ (collectOnline outs).map Prod.fst, x ∈ allowed := by
  induction outs using List.reverseRecOn with
  | nil => exact ⟨List.nodup_nil, by simp [collectOnline]⟩
  | append_singleton l a ih =>
    have hall' : ∀ k v, some (k, v) ∈ l → k ∈ allowed := fun k v hm =>
      hall k v (List.mem_append.mpr (Or.inl hm))
    obtain ⟨ihn, ihm⟩ := ih hall'
    have hstep : collectOnline (l ++ [a]) = collectStep (collectOnline l) a := by
      unfold collectOnline
      rw [List.foldl_append, List.foldl_cons, List.foldl_nil]
    cases a with
    | none => exact ⟨by rw [hstep]; exact ihn, by rw [hstep]; exact ihm⟩
    | some p =>
      obtain ⟨k2, v2⟩ := p
      rw [hstep]
      show (((dinsert (collectOnline l) k2 (specOf v2))).map Prod.fst).Nodup ∧ _
      refine ⟨nodup_keys_dinsert _ _ _ ihn, fun x hx => ?_⟩
      rcases mem_keys_dinsert _ _ _ _ hx with h2 | h2
      · exact ihm x h2
      · subst h2
        exact hall x v2 (List.mem_append.mpr (Or.inr (by simp)))

theorem submittedTasks_some (cq : CPUInfo) (gpus : List String) :
    submittedTasks (some cq) gpus =
      (if cq.name ≠ "" then
        [("cpu", routeForCPU cq.manufacturer cq.name, cq.name)]
       else []) ++
      gpus.enum.filterMap
        (fun p => if p.2 ≠ "" then some ("gpu" ++ toString p.1, Route.tpu, p.2)
                  else none) := rfl

theorem submittedTasks_none (gpus : List String) :
    submittedTasks none gpus =
      gpus.enum.filterMap
        (fun p => if p.2 ≠ "" then some ("gpu" ++ toString p.1, Route.tpu, p.2)
                  else none) := by
  unfold submittedTasks
  rw [List.nil_append]

theorem inputIdentifiers_some (cq : CPUInfo) (gpus : List String) :
    inputIdentifiers (some cq) gpus =
      "cpu" :: (List.range gpus.length).map (fun i => "gpu" ++ toString i) := rfl

theorem inputIdentifiers_none (gpus : List String) :
    inputIdentifiers none gpus =
      (List.range gpus.length).map (fun i => "gpu" ++ toString i) := by
  unfold inputIdentifiers
  rw [List.nil_append]

theorem submitted_key_mem (cpu : Option CPUInfo) (gpus : List String)
    (k : String) (r : Route) (q : String)
    (h : (k, r, q) ∈ submittedTasks cpu gpus) :
    k ∈ inputIdentifiers cpu gpus := by
  cases cpu with
  | none =>
    rw [submittedTasks_none] at h
    rw [inputIdentifiers_none]
    obtain ⟨p, hp, he⟩ := List.mem_filterMap.mp h
    by_cases hq : p.2 ≠ ""
    · rw [if_pos hq] at he
      simp only [Option.some.injEq, Prod.mk.injEq] at he
      have hlt : p.1 < gpus.length := by
        have h2 := List.mem_enum_iff_getElem?.mp hp
        exact (List.getElem?_eq_some.mp h2).1
      exact List.mem_map.mpr ⟨p.1, List.mem_range.mpr hlt, he.1⟩
    · rw [if_neg hq] at he
      simp at he
  | some cq =>
    rw [submittedTasks_some, List.mem_append] at h
    rw [inputIdentifiers_some]
    rcases h with h | h
    · by_cases hn : cq.name ≠ ""
      · rw [if_pos hn] at h
        simp only [List.mem_singleton, Prod.mk.injEq] at h
        simp [h.1]
      · rw [if_neg hn] at h
        simp at h
    · obtain ⟨p, hp, he⟩ := List.mem_filterMap.mp h
      by_cases hq : p.2 ≠ ""
      · rw [if_pos hq] at he
        simp only [Option.some.injEq, Prod.mk.injEq] at he
        have hlt : p.1 < gpus.length := by
          have h2 := List.mem_enum_iff_getElem?.mp hp
          exact (List.getElem?_eq_some.mp h2).1
        exact List.mem_cons.mpr
          (Or.inr (List.mem_map.mpr ⟨p.1, List.mem_range.mpr hlt, he.1⟩))
      · rw [if_neg hq] at he
        simp at he

/-- Any task other than the CPU one was submitted for a GPU and carries
the TechPowerUp route. -/
theorem non_cpu_task_route (cpu : Option CPUInfo) (gpus : List String)
    (k : String) (r : Route) (q : String)
    (h : (k, r, q) ∈ submittedTasks cpu gpus) (hk : k ≠ "cpu") :
    r = Route.tpu := by
  have hgpu : ∀ he0 : (k, r, q) ∈ gpus.enum.filterMap
      (fun p => if p.2 ≠ "" then some ("gpu" ++ toString p.1, Route.tpu, p.2)
                else none), r = Route.tpu := by
    intro he0
    obtain ⟨p, _, he⟩ := List.mem_filterMap.mp he0
    by_cases hq : p.2 ≠ ""
    · rw [if_pos hq] at he
      simp only [Option.some.injEq, Prod.mk.injEq] at he
      exact he.2.1.symm
    · rw [if_neg hq] at he
      simp at he
  cases cpu with
  | none =>
    rw [submittedTasks_none] at h
    exact hgpu h
  | some cq =>
    rw [submittedTasks_some, List.mem_append] at h
    rcases h with h | h
    · by_cases hn : cq.name ≠ ""
      · rw [if_pos hn] at h
        simp only [List.mem_singleton, Prod.mk.injEq] at h
        exact absurd h.1 hk
      · rw [if_neg hn] at h
        simp at h
    · exact hgpu h

/-- The CPU task is routed to the Intel resolver exactly when the code's
routing condition holds: intel occurs in the lowercased manufacturer, or
the lowercased name starts with intel-space. -/
theorem cpu_task_route (m n : String) (hn : n ≠ "") :
    ("cpu", Route.intel, n) ∈ submittedTasks (some ⟨n, m⟩) [] ↔
      (strContains (pyLower m) "intel" || strStartsWith (pyLower n) "intel ")
        = true := by
  rw [submittedTasks_some]
  simp only [List.enum_nil, List.filterMap_nil, List.append_nil]
  rw [if_pos hn]
  simp only [List.mem_singleton, Prod.mk.injEq, true_and, and_true]
  unfold routeForCPU
  constructor
  · intro h
    by_contra hc
    rw [if_neg (by simpa using hc)] at h
    exact absurd h (by decide)
  · intro h
    rw [if_pos h]

/-! ### Unbound-CACHE lemmas -/

theorem runResolverE_error (g : List String) (hg : g.contains "CACHE" = false)
    (r : Route) (w : World) (c : CacheStore) (n : String) :
    runResolverE g r w c n = Except.error PyErr.nameError := by
  have hng : ¬ g.contains "CACHE" = true := by
    rw [hg]
    exact Bool.false_ne_true
  cases r <;> simp only [runResolverE, cache_or_fetch_jsonE] <;>
    rw [if_neg hng]

theorem enrich_onlineE_no_cache (g : List String)
    (hg : g.contains "CACHE" = false) (w : World) (c : CacheStore)
    (cpu : Option CPUInfo) (gpus : List String) :
    enrich_onlineE g w c cpu gpus = ([], c) := by
  unfold enrich_onlineE
  generalize submittedTasks cpu gpus = ts
  induction ts with
  | nil => rfl
  | cons t ts ih =>
    rw [List.foldl_cons]
    rw [runResolverE_error g hg t.2.1 w c t.2.2]
    exact ih

/-! ### Claim theorems -/

/-- C10: the module never defines the global CACHE object: CACHE is
absent from the module's top-level names; under the module's actual
global namespace every online lookup task raises NameError inside
_cache_or_fetch_json, the orchestrator's per-task handler swallows it,
so enrich_online always returns the report with its online mapping
empty, and running with the cache-refresh flag raises an uncaught
NameError in main. -/
theorem cache_global_undefined :
    moduleGlobalNames.contains "CACHE" = false ∧
    (∀ (r : Route) (w : World) (c : CacheStore) (n : String),
      runResolverE moduleGlobalNames r w c n = Except.error PyErr.nameError) ∧
    (∀ (w : World) (c : CacheStore) (cpu : Option CPUInfo)
      (gpus : List String),
      (enrich_onlineE moduleGlobalNames w c cpu gpus).1 = []) ∧
    (∀ (w : World) (c : CacheStore) (cpu : Option CPUInfo)
      (gpus : List String),
      mainOnlineE moduleGlobalNames true w c cpu gpus
        = Except.error PyErr.nameError) := by
  have hg : moduleGlobalNames.contains "CACHE" = false := by decide
  refine ⟨hg, fun r w c n => runResolverE_error _ hg r w c n,
          fun w c cpu gpus => ?_, fun w c cpu gpus => ?_⟩
  · rw [enrich_onlineE_no_cache _ hg]
  · have hng : ¬ moduleGlobalNames.contains "CACHE" = true := by
      rw [hg]
      exact Bool.false_ne_true
    unfold mainOnlineE refreshCacheE
    rw [if_pos rfl, if_neg hng]

/-- C1 counterexample: a lookup whose fetch fails IS written to the
cache store.  With every network request failing, the wikipedia fetch
returns the empty document, and afterwards the store — empty beforehand —
holds an entry for the key, mapping it to the empty document. -/
theorem failed_fetch_written_to_cache :
    (wikiFetch wAllFail "X").1 = none ∧
    cEmpty.get (wikiKey "X") = none ∧
    ((wikipedia_summary wAllFail cEmpty "X").2.1).get (wikiKey "X")
      = some none := by
  refine ⟨rfl, rfl, by decide⟩

/-- C1 amended: a failed lookup is written to the cache store as the
empty document, but a lookup never short-circuits on a cached empty
document — only a cached nonempty document is served without fetching —
so later lookups are never poisoned by a transient empty result: the
fetch runs again exactly as on a missing key. -/
theorem cache_empty_never_poisons :
    (∀ (c : CacheStore) (key : String)
      (f : CacheStore → JDoc × CacheStore × Nat),
      (c.get key = none ∨ c.get key = some none) →
      (cache_or_fetch_json c key f).1 = (f c).1 ∧
      ((cache_or_fetch_json c key f).2.1).get key = some ((f c).1)) ∧
    (∀ (c : CacheStore) (key : String)
      (f : CacheStore → JDoc × CacheStore × Nat) (v : OnlineSpec),
      c.get key = some (some v) →
      cache_or_fetch_json c key f = (some v, c, 0)) := by
  constructor
  · intro c key f h
    rw [cof_miss c key f h]
    exact ⟨rfl, CacheStore.get_set_self _ _ _⟩
  · intro c key f v h
    exact cof_hit c key f v h

theorem cache_empty_never_poisons_witness :
    (cache_or_fetch_json cEmpty "k" (fun c0 => (none, c0, 1))).1 = none ∧
    ((cache_or_fetch_json cEmpty "k" (fun c0 => (none, c0, 1))).2.1).get "k"
      = some none ∧
    cache_or_fetch_json cOne "k" (fun c0 => (none, c0, 1))
      = (some sampleSpec, cOne, 0) := by
  refine ⟨(cache_empty_never_poisons.1 cEmpty "k" _ (Or.inl rfl)).1,
          (cache_empty_never_poisons.1 cEmpty "k" _ (Or.inl rfl)).2,
          cache_empty_never_poisons.2 cOne "k" _ sampleSpec (by decide)⟩

/-- C5: on any failure during its search, identifier retrieval, or
summary fetch, the generic fallback resolver returns the empty document,
i.e. an OnlineSpec with empty source and empty fields.  (In the model
the resolver is a total function that calls no other resolver, matching
never-throws and never-delegates.) -/
theorem wiki_fallback_failure_empty :
    ∀ (w : World) (c : CacheStore) (t : String),
      (c.get (wikiKey t) = none ∨ c.get (wikiKey t) = some none) →
      wikiFails w t →
      (wikipedia_summary w c t).1 = none ∧
      specOf (wikipedia_summary w c t).1 = ⟨"", "", []⟩ := by
  intro w c t hmiss hfail
  have hf : (wikiFetch w t).1 = none := by
    rcases hfail with h | h | h | ⟨pid, hs, he⟩
    · simp [wikiFetch, h]
    · simp [wikiFetch, h]
    · simp [wikiFetch, h]
    · by_cases hp : pid = 0 <;> simp [wikiFetch, hs, he, hp]
  rw [wiki_summary_miss w c t hmiss]
  refine ⟨hf, ?_⟩
  show specOf (wikiFetch w t).1 = ⟨"", "", []⟩
  rw [hf]
  rfl

theorem wiki_fallback_failure_empty_witness :
    (wikipedia_summary wAllFail cEmpty "X").1 = none ∧
    specOf (wikipedia_summary wAllFail cEmpty "X").1 = ⟨"", "", []⟩ :=
  wiki_fallback_failure_empty wAllFail cEmpty "X" (Or.inl rfl) (Or.inl rfl)

/-- C6: whenever the generic fallback resolver succeeds, the result's
fields mapping holds exactly one entry, keyed summary, whose value is
the fetched plain-text extract truncated to 1200 code points, hence at
most 1200 characters long. -/
theorem wiki_fallback_success_summary :
    ∀ (w : World) (c : CacheStore) (t : String) (s : OnlineSpec),
      (c.get (wikiKey t) = none ∨ c.get (wikiKey t) = some none) →
      (wikipedia_summary w c t).1 = some s →
      ∃ pid ex, w.wikiSearch t = some (some pid) ∧ pid ≠ 0 ∧
        w.wikiExtract pid = some ex ∧
        s.fields = [("summary", pyslice ex 1200)] ∧
        s.fields.length = 1 ∧
        (pyslice ex 1200).length ≤ 1200 ∧
        s.source = "wikipedia" := by
  intro w c t s hmiss hsome
  rw [wiki_summary_miss w c t hmiss] at hsome
  simp only at hsome
  rcases wikiFetch_fst_cases w t with h | ⟨pid, ex, hs, hp, he, h⟩
  · rw [h] at hsome
    exact absurd hsome (by simp)
  · rw [h] at hsome
    rw [Option.some.injEq] at hsome
    subst hsome
    refine ⟨pid, ex, hs, hp, he, rfl, rfl, ?_, rfl⟩
    have hlen : (pyslice ex 1200).length = min 1200 ex.data.length := by
      show (ex.data.take 1200).length = _
      exact List.length_take 1200 ex.data
    rw [hlen]
    exact Nat.min_le_left _ _

theorem wiki_fallback_success_summary_witness :
    ∃ pid ex, wWikiOK.wikiSearch "X" = some (some pid) ∧ pid ≠ 0 ∧
      wWikiOK.wikiExtract pid = some ex ∧
      (⟨"wikipedia", "https://en.wikipedia.org/?curid=5",
        [("summary", pyslice "An x86 microprocessor." 1200)]⟩ : OnlineSpec).fields
        = [("summary", pyslice ex 1200)] ∧
      (⟨"wikipedia", "https://en.wikipedia.org/?curid=5",
        [("summary", pyslice "An x86 microprocessor." 1200)]⟩ : OnlineSpec).fields.length
        = 1 ∧
      (pyslice ex 1200).length ≤ 1200 ∧
      (⟨"wikipedia", "https://en.wikipedia.org/?curid=5",
        [("summary", pyslice "An x86 microprocessor." 1200)]⟩ : OnlineSpec).source
        = "wikipedia" :=
  wiki_fallback_success_summary wWikiOK cEmpty "X" _ (Or.inl rfl) (by decide)

/-- C2 counterexample: when the vendor search yields no matching link
and the fallback itself fails, the returned document is empty and its
source field is the empty string — not the fallback's source tag. -/
theorem no_link_fallback_tag_counterexample :
    wNoLinkEmpty.intelSearch "X" = some emptyDoc ∧
    findLink "/products/" emptyDoc = none ∧
    (specOf (intel_ark_specs wNoLinkEmpty cEmpty "X").1).source = "" ∧
    ("" : String) ≠ "wikipedia" := by
  refine ⟨rfl, rfl, by decide, by decide⟩

/-- Shared shape of the C2 conclusion for one vendor. -/
theorem vendor_no_link_source (v : Vendor) (w : World) (c : CacheStore)
    (n : String) (soup : Doc)
    (hmiss : c.get (v.keyPfx ++ n) = none ∨ c.get (v.keyPfx ++ n) = some none)
    (hwf : ∀ x, c.get (wikiKey n) = some (some x) → x.source = "wikipedia")
    (hs : v.search w n = some soup)
    (hl : findLink v.pat soup = none) :
    (vendorSpecs v w c n).1 = (wikipedia_summary w c n).1 ∧
    ((specOf (vendorSpecs v w c n).1).source = "wikipedia" ∨
     (specOf (vendorSpecs v w c n).1).source = "") := by
  have hd := vendor_no_link_delegates v w c n soup hmiss hs hl
  refine ⟨hd, ?_⟩
  rw [hd]
  rcases wiki_summary_source w c n hwf with h | ⟨s, h, hsrc⟩
  · right
    rw [h]
    rfl
  · left
    rw [h]
    exact hsrc

/-- C2 amended: if a vendor-specific resolver's search document contains
no link matching the source's URL pattern, the resolver delegates to the
generic fallback resolver; the returned source equals the fallback's tag
when the fallback succeeds, or is empty when the fallback also fails —
it is never the vendor-specific tag.  (Cache hypotheses: the vendor key
holds no nonempty document, and anything cached under the wikipedia key
was produced by the wikipedia resolver.) -/
theorem no_link_delegates_to_fallback :
    (∀ (w : World) (c : CacheStore) (n : String) (soup : Doc),
      (c.get ("intel:" ++ n) = none ∨ c.get ("intel:" ++ n) = some none) →
      (∀ x, c.get (wikiKey n) = some (some x) → x.source = "wikipedia") →
      w.intelSearch n = some soup →
      findLink "/products/" soup = none →
      (intel_ark_specs w c n).1 = (wikipedia_summary w c n).1 ∧
      (specOf (intel_ark_specs w c n).1).source ≠ "intel_ark" ∧
      ((specOf (intel_ark_specs w c n).1).source = "wikipedia" ∨
       (specOf (intel_ark_specs w c n).1).source = "")) ∧
    (∀ (w : World) (c : CacheStore) (n : String) (soup : Doc),
      (c.get ("tpu:" ++ n) = none ∨ c.get ("tpu:" ++ n) = some none) →
      (∀ x, c.get (wikiKey n) = some (some x) → x.source = "wikipedia") →
      w.tpuSearch n = some soup →
      findLink "/gpu-specs/" soup = none →
      (techpowerup_gpu_specs w c n).1 = (wikipedia_summary w c n).1 ∧
      (specOf (techpowerup_gpu_specs w c n).1).source ≠ "techpowerup" ∧
      ((specOf (techpowerup_gpu_specs w c n).1).source = "wikipedia" ∨
       (specOf (techpowerup_gpu_specs w c n).1).source = "")) := by
  constructor
  · intro w c n soup hmiss hwf hs hl
    unfold intel_ark_specs
    have h := vendor_no_link_source intelVendor w c n soup hmiss hwf hs hl
    refine ⟨h.1, ?_, h.2⟩
    rcases h.2 with h2 | h2 <;> rw [h2] <;> decide
  · intro w c n soup hmiss hwf hs hl
    unfold techpowerup_gpu_specs
    have h := vendor_no_link_source tpuVendor w c n soup hmiss hwf hs hl
    refine ⟨h.1, ?_, h.2⟩
    rcases h.2 with h2 | h2 <;> rw [h2] <;> decide

theorem no_link_delegates_to_fallback_witness :
    ((intel_ark_specs wNoLinkEmpty cEmpty "X").1
      = (wikipedia_summary wNoLinkEmpty cEmpty "X").1 ∧
     (specOf (intel_ark_specs wNoLinkEmpty cEmpty "X").1).source ≠ "intel_ark" ∧
     ((specOf (intel_ark_specs wNoLinkEmpty cEmpty "X").1).source = "wikipedia" ∨
      (specOf (intel_ark_specs wNoLinkEmpty cEmpty "X").1).source = "")) ∧
    ((techpowerup_gpu_specs wNoLinkEmpty cEmpty "X").1
      = (wikipedia_summary wNoLinkEmpty cEmpty "X").1 ∧
     (specOf (techpowerup_gpu_specs wNoLinkEmpty cEmpty "X").1).source
       ≠ "techpowerup" ∧
     ((specOf (techpowerup_gpu_specs wNoLinkEmpty cEmpty "X").1).source
       = "wikipedia" ∨
      (specOf (techpowerup_gpu_specs wNoLinkEmpty cEmpty "X").1).source = "")) :=
  ⟨no_link_delegates_to_fallback.1 wNoLinkEmpty cEmpty "X" emptyDoc
    (Or.inl rfl) (fun _ h => Option.noConfusion h) rfl rfl,
   no_link_delegates_to_fallback.2 wNoLinkEmpty cEmpty "X" emptyDoc
    (Or.inl rfl) (fun _ h => Option.noConfusion h) rfl rfl⟩

/-- C3 counterexample: with caching on, a second call for the same name
is NOT fetch-free when the first call failed: the first call cached the
empty document, the empty entry is treated as a miss, and the second
call performs a network request again (one request, not zero). -/
theorem second_call_fetches_after_failure :
    (runResolver Route.wiki wAllFail cEmpty "X").1 = none ∧
    (runResolver Route.wiki wAllFail
      ((runResolver Route.wiki wAllFail cEmpty "X").2.1) "X").2.2 = 1 ∧
    (runResolver Route.wiki wAllFail
      ((runResolver Route.wiki wAllFail cEmpty "X").2.1) "X").2.2 ≠ 0 := by
  refine ⟨rfl, by decide, by decide⟩

/-- C3 amended: calling any of the chain's resolvers twice with the same
name returns, on the second call, a document structurally equal to the
first call's; and whenever the first call produced a nonempty document
the second call performs no network request at all.  (When the first
call failed, its cached empty result is deliberately re-fetched.) -/
theorem chain_resolver_second_call :
    ∀ (r : Route) (w : World) (c : CacheStore) (n : String),
      (runResolver r w ((runResolver r w c n).2.1) n).1
        = (runResolver r w c n).1 ∧
      ((runResolver r w c n).1 ≠ none →
        (runResolver r w ((runResolver r w c n).2.1) n).2.2 = 0) := by
  intro r w c n
  cases r with
  | intel => exact vendor_second_call intelVendor w c n (intelKey_ne_wikiKey n)
  | tpu => exact vendor_second_call tpuVendor w c n (tpuKey_ne_wikiKey n)
  | wiki => exact wiki_second_call w c n

theorem chain_resolver_second_call_witness :
    (runResolver Route.wiki wWikiOK
      ((runResolver Route.wiki wWikiOK cEmpty "X").2.1) "X").1
      = (runResolver Route.wiki wWikiOK cEmpty "X").1 ∧
    (runResolver Route.wiki wWikiOK
      ((runResolver Route.wiki wWikiOK cEmpty "X").2.1) "X").2.2 = 0 :=
  ⟨(chain_resolver_second_call Route.wiki wWikiOK cEmpty "X").1,
   (chain_resolver_second_call Route.wiki wWikiOK cEmpty "X").2 (by decide)⟩

/-- C4 counterexample: a TechPowerUp detail document carrying dt/dd
sibling pairs but no table rows and no title.  The claim would have the
dt/dd pairs extracted first (yielding the raw pair) and an empty mapping
in the no-title case; the code ignores dt/dd entirely for TechPowerUp,
finds no pairs, and returns a single title entry holding the queried
component name. -/
theorem tpu_extraction_counterexample :
    wDetailTPU.tpuDetail "https://www.techpowerup.com/gpu-specs/g.html"
      = some tpuDetailDoc ∧
    tpuDetailDoc.dts = [("Cores", some "8")] ∧
    tpuDetailDoc.rows = [] ∧
    tpuDetailDoc.title = none ∧
    dtPairs tpuDetailDoc = [("Cores", "8")] ∧
    (techpowerup_gpu_specs wDetailTPU cEmpty "MyGPU").1
      = some ⟨"techpowerup", "https://www.techpowerup.com/gpu-specs/g.html",
              [("title", "MyGPU")]⟩ := by
  refine ⟨rfl, rfl, rfl, rfl, by decide, by decide⟩

/-- C4 amended: the Intel resolver's extraction tries dt/dd label pairs
first and consults table rows only when they yield none; the TechPowerUp
resolver extracts from table rows only.  For both, the allow-list filter
applies, raw pairs are preferred over an empty filtered mapping, and
when no pairs exist at all a single title entry is produced — holding
the document's title, or the queried component name when the document
has no title (never an empty mapping). -/
theorem extraction_amended :
    (∀ (pdoc : Doc) (n : String) (rows2 : List (List String)),
      dtPairs pdoc ≠ [] →
      intelFieldsOf pdoc n
        = intelFieldsOf ⟨pdoc.anchors, pdoc.dts, rows2, pdoc.title⟩ n) ∧
    (∀ (pdoc : Doc) (n : String),
      dtPairs pdoc = [] →
      intelFieldsOf pdoc n
        = postFields (tablePairs [] pdoc) intelWanted (titleOf pdoc n)) ∧
    (∀ (specs : List (String × String)) (wanted : List String)
      (title : String),
      specs ≠ [] → specs.filter (fun p => wanted.contains p.1) = [] →
      postFields specs wanted title = specs) ∧
    (∀ (specs : List (String × String)) (wanted : List String)
      (title : String),
      specs.filter (fun p => wanted.contains p.1) ≠ [] →
      postFields specs wanted title
        = specs.filter (fun p => wanted.contains p.1)) ∧
    (∀ (wanted : List String) (title : String),
      postFields [] wanted title = [("title", title)]) ∧
    (∀ (pdoc : Doc) (n : String), pdoc.title = none → titleOf pdoc n = n) ∧
    (∀ (pdoc : Doc) (n : String) (dts2 : List (String × Option String)),
      tpuFieldsOf pdoc n
        = tpuFieldsOf ⟨pdoc.anchors, dts2, pdoc.rows, pdoc.title⟩ n) ∧
    (∀ (w : World) (c : CacheStore) (n : String) (soup pdoc : Doc)
      (h0 : String),
      (c.get ("intel:" ++ n) = none ∨ c.get ("intel:" ++ n) = some none) →
      w.intelSearch n = some soup →
      findLink "/products/" soup = some h0 →
      w.intelDetail (if strStartsWith h0 "http" then h0
        else "https://ark.intel.com" ++ h0) = some pdoc →
      (intel_ark_specs w c n).1 = some ⟨"intel_ark",
        (if strStartsWith h0 "http" then h0
         else "https://ark.intel.com" ++ h0), intelFieldsOf pdoc n⟩) ∧
    (∀ (w : World) (c : CacheStore) (n : String) (soup pdoc : Doc)
      (h0 : String),
      (c.get ("tpu:" ++ n) = none ∨ c.get ("tpu:" ++ n) = some none) →
      w.tpuSearch n = some soup →
      findLink "/gpu-specs/" soup = some h0 →
      w.tpuDetail (if strStartsWith h0 "http" then h0
        else "https://www.techpowerup.com" ++ h0) = some pdoc →
      (techpowerup_gpu_specs w c n).1 = some ⟨"techpowerup",
        (if strStartsWith h0 "http" then h0
         else "https://www.techpowerup.com" ++ h0), tpuFieldsOf pdoc n⟩) := by
  refine ⟨?_, ?_, ?_, ?_, ?_, ?_, ?_, ?_, ?_⟩
  · intro pdoc n rows2 h
    have hE : (dtPairs pdoc).isEmpty = false := List.isEmpty_eq_false.mpr h
    have hdt : dtPairs ⟨pdoc.anchors, pdoc.dts, rows2, pdoc.title⟩
        = dtPairs pdoc := rfl
    have hti : titleOf ⟨pdoc.anchors, pdoc.dts, rows2, pdoc.title⟩ n
        = titleOf pdoc n := rfl
    simp only [intelFieldsOf, hdt, hti, hE, Bool.false_eq_true, if_false]
  · intro pdoc n h
    have hE : (dtPairs pdoc).isEmpty = true := List.isEmpty_iff.mpr h
    simp only [intelFieldsOf, hE, if_true]
  · intro specs wanted title hne hfil
    unfold postFields
    rw [hfil]
    simp only [List.isEmpty_nil]
    rw [if_neg (by simp), if_pos (by simpa [List.isEmpty_iff] using hne)]
  · intro specs wanted title hfil
    unfold postFields
    rw [if_pos]
    simpa [List.isEmpty_iff] using hfil
  · intro wanted title
    rfl
  · intro pdoc n h
    unfold titleOf
    rw [h]
  · intro pdoc n dts2
    rfl
  · intro w c n soup pdoc h0 hmiss hs hl hd
    unfold intel_ark_specs vendorSpecs
    rw [cof_miss c (intelVendor.keyPfx ++ n)
      (fun c0 => vendorFetch intelVendor w c0 n) hmiss]
    show (vendorFetch intelVendor w c n).1 = _
    unfold vendorFetch
    simp only [intelVendor, hs, hl, hd]
  · intro w c n soup pdoc h0 hmiss hs hl hd
    unfold techpowerup_gpu_specs vendorSpecs
    rw [cof_miss c (tpuVendor.keyPfx ++ n)
      (fun c0 => vendorFetch tpuVendor w c0 n) hmiss]
    show (vendorFetch tpuVendor w c n).1 = _
    unfold vendorFetch
    simp only [tpuVendor, hs, hl, hd]

theorem extraction_amended_witness :
    intelFieldsOf dtsOnlyDoc "N"
      = intelFieldsOf ⟨dtsOnlyDoc.anchors, dtsOnlyDoc.dts, [["X", "Y"]],
          dtsOnlyDoc.title⟩ "N" ∧
    intelFieldsOf emptyDoc "N"
      = postFields (tablePairs [] emptyDoc) intelWanted (titleOf emptyDoc "N") ∧
    postFields [("Z", "1")] [] "T" = [("Z", "1")] ∧
    postFields [("TDP", "65 W")] ["TDP"] "T"
      = [("TDP", "65 W")].filter (fun p => ["TDP"].contains p.1) ∧
    postFields [] [] "T" = [("title", "T")] ∧
    titleOf emptyDoc "N" = "N" ∧
    tpuFieldsOf emptyDoc "N"
      = tpuFieldsOf ⟨emptyDoc.anchors, [("A", some "B")], emptyDoc.rows,
          emptyDoc.title⟩ "N" ∧
    (intel_ark_specs wDetailIntel cEmpty "N").1 = some ⟨"intel_ark",
      (if strStartsWith "https://ark.intel.com/products/x.html" "http" then
        "https://ark.intel.com/products/x.html"
       else "https://ark.intel.com" ++ "https://ark.intel.com/products/x.html"),
      intelFieldsOf intelDetailDoc "N"⟩ ∧
    (techpowerup_gpu_specs wDetailTPU cEmpty "MyGPU").1 = some ⟨"techpowerup",
      (if strStartsWith "https://www.techpowerup.com/gpu-specs/g.html" "http" then
        "https://www.techpowerup.com/gpu-specs/g.html"
       else "https://www.techpowerup.com"
         ++ "https://www.techpowerup.com/gpu-specs/g.html"),
      tpuFieldsOf tpuDetailDoc "MyGPU"⟩ :=
  ⟨extraction_amended.1 dtsOnlyDoc "N" [["X", "Y"]] (by decide),
   extraction_amended.2.1 emptyDoc "N" (by decide),
   extraction_amended.2.2.1 [("Z", "1")] [] "T" (by decide) (by decide),
   extraction_amended.2.2.2.1 [("TDP", "65 W")] ["TDP"] "T" (by decide),
   extraction_amended.2.2.2.2.1 [] "T",
   extraction_amended.2.2.2.2.2.1 emptyDoc "N" (by decide),
   extraction_amended.2.2.2.2.2.2.1 emptyDoc "N" [("A", some "B")],
   extraction_amended.2.2.2.2.2.2.2.1 wDetailIntel cEmpty "N" intelSearchDoc
     intelDetailDoc "https://ark.intel.com/products/x.html"
     (Or.inl rfl) rfl (by decide) rfl,
   extraction_amended.2.2.2.2.2.2.2.2 wDetailTPU cEmpty "MyGPU" tpuSearchDoc
     tpuDetailDoc "https://www.techpowerup.com/gpu-specs/g.html"
     (Or.inl rfl) rfl (by decide) rfl⟩

/-- C7 counterexample: a CPU whose name contains intel as a
case-insensitive substring, but not at the start.  The claim's routing
criterion (substring match against manufacturer or name) recognizes the
vendor, yet the dispatched task routes to the generic resolver: the code
only tests the name as a prefix with a trailing space. -/
theorem cpu_substring_not_routed :
    strContains (pyLower "Core Intel i7") "intel" = true ∧
    submittedTasks (some ⟨"Core Intel i7", ""⟩) []
      = [("cpu", Route.wiki, "Core Intel i7")] :=
  ⟨by decide, by decide⟩

/-- C7 amended: routing is a pure function of the component data: a CPU
component routes to the vendor-specific CPU resolver exactly when intel
occurs in the lowercased manufacturer or the lowercased name starts with
the prefix intel-space, otherwise to the generic fallback resolver; and
every non-CPU task — i.e. every dispatched GPU — routes to the GPU
vendor-specific resolver. -/
theorem routing_amended :
    (∀ (m n : String), n ≠ "" →
      (("cpu", Route.intel, n) ∈ submittedTasks (some ⟨n, m⟩) [] ↔
        (strContains (pyLower m) "intel"
          || strStartsWith (pyLower n) "intel ") = true)) ∧
    (∀ (cpu : Option CPUInfo) (gpus : List String) (k : String) (r : Route)
      (q : String),
      (k, r, q) ∈ submittedTasks cpu gpus → k ≠ "cpu" → r = Route.tpu) :=
  ⟨fun m n hn => cpu_task_route m n hn,
   fun cpu gpus k r q h hk => non_cpu_task_route cpu gpus k r q h hk⟩

theorem routing_amended_witness :
    ("cpu", Route.intel, "C") ∈ submittedTasks (some ⟨"C", "GenuineIntel"⟩) [] ∧
    Route.tpu = Route.tpu :=
  ⟨(routing_amended.1 "GenuineIntel" "C" (by decide)).mpr (by decide),
   routing_amended.2 none ["G"] "gpu0" Route.tpu "G" (by decide) (by decide)⟩

/-- C8: an exception raised by one task is caught at the orchestrator
boundary and only omits that task's entry — the collection over the
remaining outcomes is unchanged — while a sibling component with a
completed outcome still receives an entry holding its own resolver's
result. -/
theorem task_failure_isolated :
    (∀ (xs ys : List (Option (String × JDoc))),
      collectOnline (xs ++ none :: ys) = collectOnline (xs ++ ys)) ∧
    (∀ (outs : List (Option (String × JDoc))) (k : String) (v : JDoc),
      some (k, v) ∈ outs →
      ∃ v2, some (k, v2) ∈ outs ∧
        dlookup (collectOnline outs) k = some (specOf v2)) :=
  ⟨collect_skip_none, collect_lookup⟩

theorem task_failure_isolated_witness :
    collectOnline [some ("cpu", (none : JDoc)), none]
      = collectOnline [some ("cpu", (none : JDoc))] ∧
    ∃ v2, some ("gpu0", v2) ∈ [none, some ("gpu0", (some sampleSpec : JDoc))] ∧
      dlookup (collectOnline [none, some ("gpu0", (some sampleSpec : JDoc))])
        "gpu0" = some (specOf v2) :=
  ⟨task_failure_isolated.1 [some ("cpu", none)] [],
   task_failure_isolated.2 [none, some ("gpu0", some sampleSpec)] "gpu0"
     (some sampleSpec) (by decide)⟩

/-- C9: whenever every completed outcome carries the key of a submitted
task — as every task lambda does — the report's key set is free of
duplicates and a subset of the identifiers of the input components. -/
theorem report_keys_subset_nodup :
    ∀ (cpu : Option CPUInfo) (gpus : List String)
      (outs : List (Option (String × JDoc))),
      (∀ k v, some (k, v) ∈ outs →
        ∃ r q, (k, r, q) ∈ submittedTasks cpu gpus) →
      ((collectOnline outs).map Prod.fst).Nodup ∧
      ∀ x ∈ (collectOnline outs).map Prod.fst,
        x ∈ inputIdentifiers cpu gpus := by
  intro cpu gpus outs hall
  refine collect_keys outs (inputIdentifiers cpu gpus) (fun k v hm => ?_)
  obtain ⟨r, q, ht⟩ := hall k v hm
  exact submitted_key_mem cpu gpus k r q ht

theorem report_keys_subset_nodup_witness :
    ((collectOnline [some ("cpu", (none : JDoc))]).map Prod.fst).Nodup ∧
    ∀ x ∈ (collectOnline [some ("cpu", (none : JDoc))]).map Prod.fst,
      x ∈ inputIdentifiers (some ⟨"Intel A", "GenuineIntel"⟩) [] :=
  report_keys_subset_nodup (some ⟨"Intel A", "GenuineIntel"⟩) []
    [some ("cpu", none)]
    (fun k v hm => by
      simp only [List.mem_singleton, Option.some.injEq, Prod.mk.injEq] at hm
      exact ⟨Route.intel, "Intel A", by rw [hm.1]; decide⟩)

end HWOC
